import Mathlib

/-
  Shallow embedding of `Algo::LruCache<Key, Val, LoadFactor, Hash, Equal>`
  from src/lru-cache.cpp.

  Representation notes, tied to the source:
  * `_arena` is a `std::vector<Node>` of `capacity` nodes; a node is identified
    here by its arena index.  Fields `_key`, `_val`, `_cached_hash` become the
    lists `keys`, `vals`, `cachedHash` (all of length `capacity`).
  * `_bucket_list` is a single linear intrusive slist holding every node.  The
    constructor pushes the nodes front-to-back in arena order 0,1,...,cap-1,
    so the list reads cap-1, cap-2, ..., 1, 0 and is never relinked
    afterwards (update/resolve only reassign `_buckets` entries).  Hence the
    successor of node i in `_bucket_list` is i-1, and node 0 is last:
    `bucketNext`.
  * `_buckets` is a `std::vector` of iterators into `_bucket_list`; entry b is
    either `end()` (`none`) or an iterator at node i (`some i`).  It is
    modelled as a function `Nat → Option Nat`; update writes become pointwise
    function updates.
  * `_usage_list` is a linear doubly linked intrusive list; front = LRU
    victim, back = most recently used.  The constructor push_fronts the nodes
    in arena order, so initially it reads cap-1, ..., 0.  Modelled as a
    `List Nat` whose head is the front.
  * `Hash` (`std::hash` by default) is a template parameter; it is passed to
    the operations as an explicit function `hashF : K → Nat`.  `Equal` is
    `std::equal_to`, i.e. decidable equality.  `Key()`/`Val()` default
    construction is `default` of an `Inhabited` instance.
-/

namespace LruModel

/-- State of one `Algo::LruCache` instance (private members, lines 131-137 of
src/lru-cache.cpp), with nodes named by their arena index. -/
structure LruState (K V : Type) where
  capacity : Nat
  nbuckets : Nat
  keys : List K
  vals : List V
  cachedHash : List Nat
  buckets : Nat → Option Nat
  usage : List Nat

/-- Successor of node `i` in the global `_bucket_list`: the constructor
push_fronts nodes in arena order, so the list is cap-1, ..., 1, 0 and
`std::next` of node `i` is node `i-1`, with node 0 last (`end()`). -/
def bucketNext (i : Nat) : Option Nat :=
  match i with
  | 0 => none
  | j + 1 => some j

/-- The constructor `LruCache(size_t capacity)` (lines 58-69): arena of
`capacity` default-constructed nodes (`_cached_hash{0}`), bucket table of
`capacity * LoadFactor` entries all set to `end()`, and both intrusive lists
populated by push_front in arena order. -/
def mkLruCache (K V : Type) [Inhabited K] [Inhabited V]
    (capacity lf : Nat) : LruState K V :=
  { capacity := capacity
    nbuckets := capacity * lf
    keys := List.replicate capacity default
    vals := List.replicate capacity default
    cachedHash := List.replicate capacity 0
    buckets := fun _ => none
    usage := (List.range capacity).reverse }

/-- The chain walk of `update`/`resolve` (lines 82-96 and 116-127) starting at
node `i`: while the iterator is not `end()` and `it->_cached_hash == hash`,
return the node whose key matches, else advance with `++it`.  Returns the
node index found, if any. -/
def chainFindFrom {K V : Type} [Inhabited K] [DecidableEq K]
    (st : LruState K V) (h : Nat) (k : K) : Nat → Option Nat
  | 0 =>
    if st.cachedHash.getD 0 0 = h then
      if st.keys.getD 0 default = k then some 0 else none
    else none
  | j + 1 =>
    if st.cachedHash.getD (j + 1) 0 = h then
      if st.keys.getD (j + 1) default = k then some (j + 1)
      else chainFindFrom st h k j
    else none

/-- The chain walk started at the bucket-table entry `_buckets[h]`. -/
def chainFind {K V : Type} [Inhabited K] [DecidableEq K]
    (st : LruState K V) (h : Nat) (k : K) : Option Nat :=
  match st.buckets h with
  | none => none
  | some i => chainFindFrom st h k i

/-- The set of slots visited by the bucket-chain walk from node `i`, in visit
order, ignoring keys: walk while `it != end() && it->_cached_hash == h`. -/
def chainFrom {K V : Type} (st : LruState K V) (h : Nat) : Nat → List Nat
  | 0 => if st.cachedHash.getD 0 0 = h then [0] else []
  | j + 1 =>
    if st.cachedHash.getD (j + 1) 0 = h then (j + 1) :: chainFrom st h j
    else []

/-- The slots visited by walking the chain of bucket `h` from the bucket
table's entry. -/
def chainSlots {K V : Type} (st : LruState K V) (h : Nat) : List Nat :=
  match st.buckets h with
  | none => []
  | some i => chainFrom st h i

/-- `Val resolve(const Key &key)` (lines 112-129).  The first component is
`some value` on the hit return path (line 124) and `none` on the fall-through
return path (line 128, which in C++ returns `Val()`).  A hit erases the node
from `_usage_list` and push_backs it. -/
def resolve {K V : Type} [Inhabited K] [Inhabited V] [DecidableEq K]
    (hashF : K → Nat) (st : LruState K V) (k : K) : Option V × LruState K V :=
  let h := hashF k % st.nbuckets
  match chainFind st h k with
  | none => (none, st)
  | some i =>
      (some (st.vals.getD i default),
       { st with usage := (st.usage.erase i) ++ [i] })

/-- The value actually returned by the C++ `resolve`: the stored value on a
hit, a default-constructed `Val()` on a miss (line 128). -/
def resolveCpp {K V : Type} [Inhabited K] [Inhabited V] [DecidableEq K]
    (hashF : K → Nat) (st : LruState K V) (k : K) : V :=
  ((resolve hashF st k).1).getD default

/-- `void update(const Key &key, const Val &val)` (lines 78-110).  Hit path:
overwrite the value in place and promote the node in `_usage_list`.  Miss
path: take the `_usage_list` front as victim `lru`, overwrite its key/value,
repoint `_buckets[lru._cached_hash]` at `std::next` of `lru` in the global
bucket list when that successor exists and shares the old cached hash (else
at `end()`), then point `_buckets[hash]` at `lru`, set `lru._cached_hash` to
the new hash, and move `lru` to the `_usage_list` back. -/
def update {K V : Type} [Inhabited K] [Inhabited V] [DecidableEq K]
    (hashF : K → Nat) (st : LruState K V) (k : K) (v : V) : LruState K V :=
  let h := hashF k % st.nbuckets
  match chainFind st h k with
  | some i =>
      { st with
        vals := st.vals.set i v
        usage := (st.usage.erase i) ++ [i] }
  | none =>
      match st.usage with
      | [] => st
      | lru :: rest =>
          let oldH := st.cachedHash.getD lru 0
          let newOld : Option Nat :=
            match bucketNext lru with
            | none => none
            | some j => if st.cachedHash.getD j 0 ≠ oldH then none else some j
          { st with
            keys := st.keys.set lru k
            vals := st.vals.set lru v
            cachedHash := st.cachedHash.set lru h
            buckets := fun b =>
              if b = h then some lru
              else if b = oldH then newOld
              else st.buckets b
            usage := rest ++ [lru] }

/-- One client call: either `update(k, v)` or `resolve(k)`. -/
inductive Op (K V : Type) where
  | upd (k : K) (v : V)
  | res (k : K)

/-- Run a sequence of calls, collecting the result of each `resolve` in
order. -/
def runOps {K V : Type} [Inhabited K] [Inhabited V] [DecidableEq K]
    (hashF : K → Nat) (st : LruState K V) :
    List (Op K V) → List (Option V) × LruState K V
  | [] => ([], st)
  | Op.upd k v :: rest => runOps hashF (update hashF st k v) rest
  | Op.res k :: rest =>
      let r := resolve hashF st k
      let o := runOps hashF r.2 rest
      (r.1 :: o.1, o.2)

/-- The identity instantiation of the `Hash` template parameter for `Nat`
keys: key `k` lands in bucket `k % nbuckets`. -/
def idHash : Nat → Nat := fun n => n

/-- Structural well-formedness of a cache state: the three arena field lists
have length `capacity`, the usage list is nonempty and holds arena indices,
and every bucket-table entry that is not `end()` points at an arena node.
All of this holds at construction and is preserved by the operations. -/
def WF {K V : Type} (st : LruState K V) : Prop :=
  st.keys.length = st.capacity ∧
  st.vals.length = st.capacity ∧
  st.cachedHash.length = st.capacity ∧
  st.usage ≠ [] ∧
  (∀ i ∈ st.usage, i < st.capacity) ∧
  (∀ b i, st.buckets b = some i → i < st.capacity)

/-- The call sequence of the embedded basic test (`main`, lines 189-205). -/
def basicTestOps : List (Op String String) :=
  [Op.upd "abc" "ABC", Op.upd "def" "DEF", Op.res "abc", Op.res "def",
   Op.upd "abc" "ABC!", Op.res "def", Op.res "abc",
   Op.upd "qwe" "QWE", Op.res "abc", Op.res "qwe", Op.res "def",
   Op.upd "iop" "IOP", Op.res "qwe", Op.res "iop", Op.res "abc"]

/-- A concrete collision-free hash for the four test keys: they land in the
distinct nonzero buckets 1, 2, 3, 4 of the 8-entry table. -/
def demoHash : String → Nat := fun s =>
  if s = "abc" then 1
  else if s = "def" then 2
  else if s = "qwe" then 3
  else if s = "iop" then 4
  else 5

/-- Capacity-2 cache after `update(1,10); update(2,20); resolve(1)` under a
hash `hs` (buckets are `hs k % 8`).  Both keys are cached; key 2 sits in the
usage-list front (LRU), key 1 at the back (just touched). -/
def promoPre (hs : Nat → Nat) : LruState Nat Nat :=
  (runOps hs (mkLruCache Nat Nat 2 4) [Op.upd 1 10, Op.upd 2 20, Op.res 1]).2

/-- `promoPre` under the identity hash: keys 1 and 2 in buckets 1 and 2. -/
def preState : LruState Nat Nat := promoPre idHash

/-- `preState` after `update(9, 90)`: key 9 collides with key 1 in bucket 1
(9 % 8 = 1), so the rehoming of the eviction victim (slot 0, holding key 2)
repoints bucket 1 at slot 0 and orphans slot 1, which still holds key 1 with
cached hash 1. -/
def clashState : LruState Nat Nat := update idHash preState 9 90

/-- Capacity-2 cache (identity hash) after
`update(3,30); update(1,10); update(9,90); resolve(9)`.  Keys 1 and 9 share
bucket 1 (9 % 8 = 1) and its chain reads slot 1 (key 9), slot 0 (key 1);
key 9 was just touched, key 1 (slot 0) is the usage-list front.  The next
eviction's victim is slot 0, whose stored bucket index is the shared
bucket 1, so rehoming it clobbers `_buckets[1]` unconditionally. -/
def clobberPre : LruState Nat Nat :=
  (runOps idHash (mkLruCache Nat Nat 2 4)
    [Op.upd 3 30, Op.upd 1 10, Op.upd 9 90, Op.res 9]).2

/-- Capacity-1 cache holding key 1 with the default value 0 (`Val()`). -/
def sentinelState : LruState Nat Nat := update idHash (mkLruCache Nat Nat 1 4) 1 0

/-- Capacity-2 cache after the single call `update(9, 99)`: the eviction
rehoming repoints bucket 0 at construction slot 0 (whose cached hash is the
construction value 0), although nothing was ever stored there. -/
def phantomState : LruState Nat Nat := update idHash (mkLruCache Nat Nat 2 4) 9 99

/-! Helper lemmas about the chain walk and the operations. -/

theorem getD_set_self {α : Type} (l : List α) (i : Nat) (a d : α)
    (h : i < l.length) : (l.set i a).getD i d = a := by
  induction l generalizing i with
  | nil => simp at h
  | cons x xs ih =>
      cases i with
      | zero => simp
      | succ j => simpa using ih j (by simpa using h)

theorem chainFindFrom_le {K V : Type} [Inhabited K] [DecidableEq K]
    (st : LruState K V) (h : Nat) (k : K) (i j : Nat)
    (hf : chainFindFrom st h k i = some j) : j ≤ i := by
  induction i with
  | zero =>
      simp only [chainFindFrom] at hf
      split at hf
      · split at hf
        · exact Nat.le_of_eq (Option.some.inj hf).symm
        · exact absurd hf (by simp)
      · exact absurd hf (by simp)
  | succ n ih =>
      simp only [chainFindFrom] at hf
      split at hf
      · split at hf
        · exact Nat.le_of_eq (Option.some.inj hf).symm
        · exact Nat.le_succ_of_le (ih hf)
      · exact absurd hf (by simp)

theorem chainFindFrom_keys {K V : Type} [Inhabited K] [DecidableEq K]
    (st : LruState K V) (h : Nat) (k : K) (i j : Nat)
    (hf : chainFindFrom st h k i = some j) : st.keys.getD j default = k := by
  induction i with
  | zero =>
      simp only [chainFindFrom] at hf
      split at hf
      · split at hf
        · cases Option.some.inj hf; assumption
        · exact absurd hf (by simp)
      · exact absurd hf (by simp)
  | succ n ih =>
      simp only [chainFindFrom] at hf
      split at hf
      · split at hf
        · cases Option.some.inj hf; assumption
        · exact ih hf
      · exact absurd hf (by simp)

theorem chainFindFrom_congr {K V : Type} [Inhabited K] [DecidableEq K]
    (st st2 : LruState K V) (h : Nat) (k : K)
    (hk : st2.keys = st.keys) (hc : st2.cachedHash = st.cachedHash) :
    ∀ i, chainFindFrom st2 h k i = chainFindFrom st h k i := by
  intro i
  induction i with
  | zero => simp only [chainFindFrom, hk, hc]
  | succ n ih => simp only [chainFindFrom, hk, hc, ih]

theorem chainFindFrom_self {K V : Type} [Inhabited K] [DecidableEq K]
    (st : LruState K V) (h : Nat) (k : K) (i : Nat)
    (hc : st.cachedHash.getD i 0 = h) (hk : st.keys.getD i default = k) :
    chainFindFrom st h k i = some i := by
  cases i with
  | zero => simp only [chainFindFrom, hc, hk, eq_self_iff_true, if_true]
  | succ n => simp only [chainFindFrom, hc, hk, eq_self_iff_true, if_true]

theorem chainFind_none {K V : Type} [Inhabited K] [DecidableEq K]
    (st : LruState K V) (h : Nat) (k : K) (hb : st.buckets h = none) :
    chainFind st h k = none := by
  simp [chainFind, hb]

theorem chainFind_some {K V : Type} [Inhabited K] [DecidableEq K]
    (st : LruState K V) (h : Nat) (k : K) (i : Nat) (hb : st.buckets h = some i) :
    chainFind st h k = chainFindFrom st h k i := by
  simp [chainFind, hb]

theorem resolve_of_find_none {K V : Type} [Inhabited K] [Inhabited V] [DecidableEq K]
    (hashF : K → Nat) (st : LruState K V) (k : K)
    (hf : chainFind st (hashF k % st.nbuckets) k = none) :
    resolve hashF st k = (none, st) := by
  simp [resolve, hf]

theorem resolve_of_find_some {K V : Type} [Inhabited K] [Inhabited V] [DecidableEq K]
    (hashF : K → Nat) (st : LruState K V) (k : K) (i : Nat)
    (hf : chainFind st (hashF k % st.nbuckets) k = some i) :
    resolve hashF st k =
      (some (st.vals.getD i default),
       { st with usage := (st.usage.erase i) ++ [i] }) := by
  simp [resolve, hf]

theorem update_of_find_some {K V : Type} [Inhabited K] [Inhabited V] [DecidableEq K]
    (hashF : K → Nat) (st : LruState K V) (k : K) (v : V) (i : Nat)
    (hf : chainFind st (hashF k % st.nbuckets) k = some i) :
    update hashF st k v =
      { st with vals := st.vals.set i v, usage := (st.usage.erase i) ++ [i] } := by
  simp [update, hf]

theorem mkLruCache_nat_two : mkLruCache Nat Nat 2 4 =
    ⟨2, 8, [0, 0], [0, 0], [0, 0], fun _ => none, [1, 0]⟩ := rfl

theorem mkLruCache_string_two : mkLruCache String String 2 4 =
    ⟨2, 8, ["", ""], ["", ""], [0, 0], fun _ => none, [1, 0]⟩ := rfl

theorem update_of_find_none {K V : Type} [Inhabited K] [Inhabited V] [DecidableEq K]
    (hashF : K → Nat) (st : LruState K V) (k : K) (v : V) (lru : Nat) (rest : List Nat)
    (hf : chainFind st (hashF k % st.nbuckets) k = none)
    (hu : st.usage = lru :: rest) :
    update hashF st k v =
      { st with
        keys := st.keys.set lru k
        vals := st.vals.set lru v
        cachedHash := st.cachedHash.set lru (hashF k % st.nbuckets)
        buckets := fun b =>
          if b = hashF k % st.nbuckets then some lru
          else if b = st.cachedHash.getD lru 0 then
            match bucketNext lru with
            | none => none
            | some j =>
                if st.cachedHash.getD j 0 ≠ st.cachedHash.getD lru 0 then none
                else some j
          else st.buckets b
        usage := rest ++ [lru] } := by
  simp [update, hf, hu]

/-! Claim theorems. -/

/-- C1: the bucket-chain integrity invariant fails on the code.  In
`clashState` (capacity 2, identity hash, after
`update(1,10); update(2,20); resolve(1); update(9,90)`) the walk from the
bucket table's entry for bucket 1 visits only slot 0, although slot 1 also
has stored bucket index (cached hash) 1: the eviction rehoming of
`update(9,90)` orphaned slot 1, so the walk does not visit exactly the set
of slots whose bucket index equals 1. -/
theorem c1_bucket_chain_integrity_violated :
    chainSlots clashState 1 = [0] ∧
    clashState.cachedHash = [1, 1] ∧
    1 ∉ chainSlots clashState 1 := by decide

/-- C2: LRU eviction correctness fails on the code.  In `preState`
(capacity 2, identity hash, after `update(1,10); update(2,20); resolve(1)`)
both keys resolve as hits and key 2 (slot 0, the usage-list front) is the
least recently touched while key 1 was touched last.  The claim says
`update(9,90)` may evict only key 2, but afterwards key 1 has also ceased
to be cached: the rehoming into bucket 1 = 9 % 8 orphaned key 1's slot. -/
theorem c2_eviction_loses_most_recent_key :
    (resolve idHash preState 1).1 = some 10 ∧
    (resolve idHash preState 2).1 = some 20 ∧
    preState.usage = [0, 1] ∧
    preState.keys = [2, 1] ∧
    (resolve idHash (update idHash preState 9 90) 1).1 = none ∧
    (resolve idHash (update idHash preState 9 90) 2).1 = none := by decide

/-- C9: a missed `resolve` has no side effect at all: when the walk finds no
matching key, the returned state is the input state, so the bucket table and
every slot's key, value and cached hash are unchanged. -/
theorem c9_resolve_miss_frame {K V : Type} [Inhabited K] [Inhabited V] [DecidableEq K]
    (hashF : K → Nat) (st : LruState K V) (k : K)
    (hmiss : (resolve hashF st k).1 = none) :
    (resolve hashF st k).2 = st := by
  cases hf : chainFind st (hashF k % st.nbuckets) k with
  | none => rw [resolve_of_find_none hashF st k hf]
  | some i =>
      rw [resolve_of_find_some hashF st k i hf] at hmiss
      simp at hmiss

/-- Witness for C9 at a concrete input: resolving key 7 on a fresh
capacity-2 cache is a miss and leaves the state unchanged. -/
theorem c9_resolve_miss_frame_witness :
    (resolve idHash (mkLruCache Nat Nat 2 4) 7).2 = mkLruCache Nat Nat 2 4 :=
  c9_resolve_miss_frame idHash (mkLruCache Nat Nat 2 4) 7 (by decide)

/-- C4: round trip.  For any structurally well-formed state, `update(k, v)`
immediately followed by `resolve(k)` is a hit returning `v`, on both the
overwrite path and the evict-and-rehome path of `update`. -/
theorem c4_update_resolve_roundtrip {K V : Type} [Inhabited K] [Inhabited V] [DecidableEq K]
    (hashF : K → Nat) (st : LruState K V) (k : K) (v : V) (hwf : WF st) :
    (resolve hashF (update hashF st k v) k).1 = some v := by
  obtain ⟨hkl, hvl, hcl, hune, husage, hbk⟩ := hwf
  cases hf : chainFind st (hashF k % st.nbuckets) k with
  | some i =>
      have hex : ∃ hd, st.buckets (hashF k % st.nbuckets) = some hd := by
        cases hb2 : st.buckets (hashF k % st.nbuckets) with
        | none => rw [chainFind_none st _ k hb2] at hf; simp at hf
        | some hd => exact ⟨hd, rfl⟩
      obtain ⟨hd, hb2⟩ := hex
      have hff : chainFindFrom st (hashF k % st.nbuckets) k hd = some i := by
        rw [chainFind_some st _ k hd hb2] at hf
        exact hf
      have hrange : i < st.capacity :=
        Nat.lt_of_le_of_lt (chainFindFrom_le st _ k hd i hff) (hbk _ _ hb2)
      rw [update_of_find_some hashF st k v i hf]
      have hfind2 : chainFind
          { st with vals := st.vals.set i v, usage := (st.usage.erase i) ++ [i] }
          (hashF k % st.nbuckets) k = some i := by
        have heq := chainFind_some
          { st with vals := st.vals.set i v, usage := (st.usage.erase i) ++ [i] }
          (hashF k % st.nbuckets) k hd hb2
        rw [heq]
        rw [chainFindFrom_congr st
          { st with vals := st.vals.set i v, usage := (st.usage.erase i) ++ [i] }
          (hashF k % st.nbuckets) k rfl rfl hd]
        exact hff
      rw [resolve_of_find_some hashF _ k i hfind2]
      simp only
      rw [getD_set_self st.vals i v default (by rw [hvl]; exact hrange)]
  | none =>
      cases hu : st.usage with
      | nil => exact absurd hu hune
      | cons lru rest =>
          have hlru : lru < st.capacity := husage lru (by rw [hu]; exact List.mem_cons_self _ _)
          rw [update_of_find_none hashF st k v lru rest hf hu]
          have hb2 : (fun b =>
              if b = hashF k % st.nbuckets then some lru
              else if b = st.cachedHash.getD lru 0 then
                match bucketNext lru with
                | none => none
                | some j =>
                    if st.cachedHash.getD j 0 ≠ st.cachedHash.getD lru 0 then none
                    else some j
              else st.buckets b) (hashF k % st.nbuckets) = some lru := by simp
          have hchc : (st.cachedHash.set lru (hashF k % st.nbuckets)).getD lru 0 =
              hashF k % st.nbuckets :=
            getD_set_self st.cachedHash lru _ 0 (by rw [hcl]; exact hlru)
          have hck : (st.keys.set lru k).getD lru default = k :=
            getD_set_self st.keys lru k default (by rw [hkl]; exact hlru)
          have hfind2 : chainFind
              { st with
                keys := st.keys.set lru k
                vals := st.vals.set lru v
                cachedHash := st.cachedHash.set lru (hashF k % st.nbuckets)
                buckets := fun b =>
                  if b = hashF k % st.nbuckets then some lru
                  else if b = st.cachedHash.getD lru 0 then
                    match bucketNext lru with
                    | none => none
                    | some j =>
                        if st.cachedHash.getD j 0 ≠ st.cachedHash.getD lru 0 then none
                        else some j
                  else st.buckets b
                usage := rest ++ [lru] }
              (hashF k % st.nbuckets) k = some lru := by
            have heq := chainFind_some
              { st with
                keys := st.keys.set lru k
                vals := st.vals.set lru v
                cachedHash := st.cachedHash.set lru (hashF k % st.nbuckets)
                buckets := fun b =>
                  if b = hashF k % st.nbuckets then some lru
                  else if b = st.cachedHash.getD lru 0 then
                    match bucketNext lru with
                    | none => none
                    | some j =>
                        if st.cachedHash.getD j 0 ≠ st.cachedHash.getD lru 0 then none
                        else some j
                  else st.buckets b
                usage := rest ++ [lru] }
              (hashF k % st.nbuckets) k lru hb2
            rw [heq]
            exact chainFindFrom_self _ _ k lru hchc hck
          rw [resolve_of_find_some hashF _ k lru hfind2]
          simp only
          rw [getD_set_self st.vals lru v default (by rw [hvl]; exact hlru)]

/-- Witness for C4 at a concrete input: a fresh capacity-2 cache is
well-formed, and `update(5, 55)` then `resolve(5)` returns `some 55`. -/
theorem c4_update_resolve_roundtrip_witness :
    (resolve idHash (update idHash (mkLruCache Nat Nat 2 4) 5 55) 5).1 = some 55 :=
  c4_update_resolve_roundtrip idHash (mkLruCache Nat Nat 2 4) 5 55
    (by
      refine ⟨rfl, rfl, rfl, by decide, by decide, ?_⟩
      intro b i h
      simp [mkLruCache] at h)

/-- C10: phantom default-key hit.  The single call `update(9, 99)` on a
fresh capacity-2 cache (identity hash) never inserts the default key 0, yet
afterwards `resolve(0)` is a hit returning the default value: the eviction
rehoming pointed bucket 0 at construction slot 0 (still holding the
default-constructed key, value and cached hash 0), and the hit promotes that
never-written slot from the usage-list front position it still occupied. -/
theorem c10_phantom_default_key_hit :
    phantomState.keys = [0, 9] ∧
    phantomState.vals = [0, 99] ∧
    (resolve idHash phantomState 0).1 = some 0 ∧
    phantomState.usage = [0, 1] ∧
    (resolve idHash phantomState 0).2.usage = [1, 0] := by decide

/-- C7: the code's `resolve` signals a miss by returning a
default-constructed `Val()` (line 128), not an explicit option.  With the
default value legitimately stored under key 1 in a capacity-1 cache, the
returned value of a hit on key 1 and of a miss on key 2 coincide, though the
two return paths differ. -/
theorem c7_miss_indistinguishable_from_default :
    resolveCpp idHash sentinelState 1 = resolveCpp idHash sentinelState 2 ∧
    (resolve idHash sentinelState 1).1 = some 0 ∧
    (resolve idHash sentinelState 2).1 = none := by decide

/-- C8: the constructor (lines 58-69) performs no capacity check: with
capacity 0 it does not fail but produces an instance with an empty arena,
empty usage list and a bucket table of 0 entries, on which any
`update`/`resolve` computes `hash % 0` (division by zero in the C++). -/
theorem c8_zero_capacity_not_rejected :
    (mkLruCache Nat Nat 0 4).nbuckets = 0 ∧
    (mkLruCache Nat Nat 0 4).keys = [] ∧
    (mkLruCache Nat Nat 0 4).usage = [] := by decide

/-- C6 counterexample: in `preState` key 1 is cached and was just touched by
`resolve(1)`; inserting capacity = 2 other new distinct keys (3 and 4, in
fresh buckets) then evicts key 1, contradicting the claim that inserting
`capacity` new distinct keys after the read still retains it. -/
theorem c6_promotion_claim_cex :
    (resolve idHash preState 1).1 = some 10 ∧
    (resolve idHash (update idHash (update idHash preState 3 30) 4 40) 1).1 = none := by
  decide

/-- C6 amended, in two parts matching its two sentences.  Part one (the
corrected counts, in histories whose evictions never touch the read key's
bucket chain): at capacity 2, for every hash placing the keys 1, 2, 3, 4 in
pairwise distinct nonzero buckets, after `promoPre hs` (which ends with
`resolve(1)`) inserting capacity - 1 = 1 other new distinct key retains
key 1 and inserting capacity = 2 such keys evicts it.  Part two (no
unconditional retention bound exists in this code, so the scope restriction
of part one cannot be dropped): in `clobberPre`, key 9 resolves as a hit and
was touched last, yet the single fresh-bucket insert `update(4,40)` already
evicts it — rehoming the victim (slot 0) clobbers the bucket-1 head that
both keys shared. -/
theorem c6_promotion_amended (hs : Nat → Nat)
    (hA0 : hs 1 % 8 ≠ 0) (hB0 : hs 2 % 8 ≠ 0) (hC0 : hs 3 % 8 ≠ 0) (hD0 : hs 4 % 8 ≠ 0)
    (hAB : hs 1 % 8 ≠ hs 2 % 8) (hAC : hs 1 % 8 ≠ hs 3 % 8) (hAD : hs 1 % 8 ≠ hs 4 % 8)
    (hBC : hs 2 % 8 ≠ hs 3 % 8) (hBD : hs 2 % 8 ≠ hs 4 % 8) (hCD : hs 3 % 8 ≠ hs 4 % 8) :
    ((resolve hs (update hs (promoPre hs) 3 30) 1).1 = some 10 ∧
     (resolve hs (update hs (update hs (promoPre hs) 3 30) 4 40) 1).1 = none) ∧
    ((resolve idHash clobberPre 9).1 = some 90 ∧
     (resolve idHash (update idHash clobberPre 4 40) 9).1 = none) := by
  have h0A := Ne.symm hA0
  have h0B := Ne.symm hB0
  have h0C := Ne.symm hC0
  have h0D := Ne.symm hD0
  have hBA := Ne.symm hAB
  have hCA := Ne.symm hAC
  have hDA := Ne.symm hAD
  have hCB := Ne.symm hBC
  have hDB := Ne.symm hBD
  have hDC := Ne.symm hCD
  refine ⟨⟨?_, ?_⟩, by decide⟩ <;>
    simp [promoPre, runOps, mkLruCache_nat_two, update, resolve, chainFind,
      chainFindFrom, bucketNext,
      hA0, hB0, hC0, hD0, hAB, hAC, hAD, hBC, hBD, hCD,
      h0A, h0B, h0C, h0D, hBA, hCA, hDA, hCB, hDB, hDC,
      List.erase_cons]

/-- Witness for C6 amended under the identity hash (buckets 1, 2, 3, 4). -/
theorem c6_promotion_amended_witness :
    ((resolve idHash (update idHash (promoPre idHash) 3 30) 1).1 = some 10 ∧
     (resolve idHash (update idHash (update idHash (promoPre idHash) 3 30) 4 40) 1).1 = none) ∧
    ((resolve idHash clobberPre 9).1 = some 90 ∧
     (resolve idHash (update idHash clobberPre 4 40) 9).1 = none) :=
  c6_promotion_amended idHash (by decide) (by decide) (by decide) (by decide)
    (by decide) (by decide) (by decide) (by decide) (by decide) (by decide)

/-- C3: the embedded basic test scenario on a capacity-2 cache produces
exactly the claimed hit/miss results, for every hash function that places
the four keys in pairwise distinct buckets of the 8-entry table with
"abc" not in bucket 0 (as the implementation-defined `std::hash` does in
the author's run; a hash colliding two keys, or sending "abc" to bucket 0,
changes the outcome). -/
theorem c3_basic_test_scenario (hs : String → Nat)
    (hA0 : hs "abc" % 8 ≠ 0) (hB0 : hs "def" % 8 ≠ 0)
    (hC0 : hs "qwe" % 8 ≠ 0) (hD0 : hs "iop" % 8 ≠ 0)
    (hAB : hs "abc" % 8 ≠ hs "def" % 8) (hAC : hs "abc" % 8 ≠ hs "qwe" % 8)
    (hAD : hs "abc" % 8 ≠ hs "iop" % 8) (hBC : hs "def" % 8 ≠ hs "qwe" % 8)
    (hBD : hs "def" % 8 ≠ hs "iop" % 8) (hCD : hs "qwe" % 8 ≠ hs "iop" % 8) :
    (runOps hs (mkLruCache String String 2 4) basicTestOps).1 =
      [some "ABC", some "DEF", some "DEF", some "ABC!", some "ABC!",
       some "QWE", none, some "QWE", some "IOP", none] := by
  have h0A := Ne.symm hA0
  have h0B := Ne.symm hB0
  have h0C := Ne.symm hC0
  have h0D := Ne.symm hD0
  have hBA := Ne.symm hAB
  have hCA := Ne.symm hAC
  have hDA := Ne.symm hAD
  have hCB := Ne.symm hBC
  have hDB := Ne.symm hBD
  have hDC := Ne.symm hCD
  rw [basicTestOps, mkLruCache_string_two]
  simp [runOps, update, resolve, chainFind, chainFindFrom, bucketNext,
    hA0, hB0, hC0, hD0, hAB, hAC, hAD, hBC, hBD, hCD,
    h0A, h0B, h0C, h0D, hBA, hCA, hDA, hCB, hDB, hDC,
    List.erase_cons]

/-- Witness for C3 at the concrete collision-free hash `demoHash`. -/
theorem c3_basic_test_scenario_witness :
    (runOps demoHash (mkLruCache String String 2 4) basicTestOps).1 =
      [some "ABC", some "DEF", some "DEF", some "ABC!", some "ABC!",
       some "QWE", none, some "QWE", some "IOP", none] :=
  c3_basic_test_scenario demoHash (by decide) (by decide) (by decide) (by decide)
    (by decide) (by decide) (by decide) (by decide) (by decide) (by decide)

/-- C5: the capacity invariant's "exactly `capacity` once `capacity`
distinct keys have been inserted" fails on the code.  `clashState` is a
capacity-2 cache after inserting the three distinct keys 1, 2, 9, yet
exactly one key (9) resolves as a hit: every other key misses, so only one
live pair is stored. -/
theorem c5_capacity_not_reached :
    (∀ k : Nat, ((resolve idHash clashState k).1).isSome → k = 9) ∧
    (resolve idHash clashState 9).1 = some 90 := by
  constructor
  · intro k hk
    cases hf : chainFind clashState (idHash k % clashState.nbuckets) k with
    | none =>
        rw [resolve_of_find_none idHash clashState k hf] at hk
        simp at hk
    | some j =>
        have hkey : clashState.keys.getD j default = k := by
          have hex : ∃ hd, clashState.buckets (idHash k % clashState.nbuckets) = some hd := by
            cases hb2 : clashState.buckets (idHash k % clashState.nbuckets) with
            | none => rw [chainFind_none clashState _ k hb2] at hf; simp at hf
            | some hd => exact ⟨hd, rfl⟩
          obtain ⟨hd, hb2⟩ := hex
          have hff : chainFindFrom clashState (idHash k % clashState.nbuckets) k hd = some j := by
            rw [chainFind_some clashState _ k hd hb2] at hf
            exact hf
          exact chainFindFrom_keys clashState _ k hd j hff
        have hkeys : clashState.keys = [9, 1] := by decide
        rw [hkeys] at hkey
        rcases j with _ | j
        · simpa using hkey.symm
        · rcases j with _ | j
          · have h1 : ([9, 1] : List Nat).getD 1 default = 1 := rfl
            rw [h1] at hkey
            rw [← hkey] at hk
            have hmiss : (resolve idHash clashState 1).1 = none := by decide
            rw [hmiss] at hk
            simp at hk
          · have h2 : ([9, 1] : List Nat).getD (j + 2) default = 0 := by
              simp [List.getD]
            rw [h2] at hkey
            rw [← hkey] at hk
            have hmiss : (resolve idHash clashState 0).1 = none := by decide
            rw [hmiss] at hk
            simp at hk
  · decide

/-- Witness for C5: key 9 itself satisfies the hit hypothesis. -/
theorem c5_capacity_not_reached_witness :
    (9 : Nat) = 9 ∧ (resolve idHash clashState 9).1 = some 90 :=
  ⟨c5_capacity_not_reached.1 9 (by decide), c5_capacity_not_reached.2⟩

end LruModel
